import Mathlib

/-!
# Verification of the AL language-server wrapper (`al_lsp_wrapper.py`)

A shallow embedding of the proxy's core logic:

* `Json` models the JSON values exchanged over the wire (numbers as `Int`;
  the claims below never involve fractional numbers).
* Python dictionaries become association lists; `Json.getField` is `dict.get`
  (first occurrence; the claims never involve duplicate keys).
* The wrapper's mutable object state (`ALLSPWrapper`) becomes an explicit
  `St` record threaded through each handler, together with a trace of every
  message sent to the primary backend and to the call-hierarchy backend.
* Both backend processes are black boxes (spec §1): a round trip
  `send_request(m, p)` yields `Env.backend m p`, and the filesystem is the
  pair `Env.hasAppJson` / `Env.readFile` over paths modelled as component
  lists, leaf first (so `Path.parent` is `List.tail`).
* The hover regular expressions are compiled by hand into character-list
  matchers implementing exactly the behaviour of `re.search` on the five
  patterns of `_extract_symbol_from_hover` (none of which ever needs
  backtracking beyond maximal munch, see the comments there).
-/

/-- JSON values.  Numbers are modelled as `Int`: no claim involves
fractional numbers. -/
inductive Json where
  | null : Json
  | bool : Bool → Json
  | num : Int → Json
  | str : String → Json
  | arr : List Json → Json
  | obj : List (String × Json) → Json
deriving Repr

namespace Json

/-- `dict.get(key)` — `none` when the key is absent or the value is not a
dictionary.  First occurrence wins (the claims never involve duplicate
keys). -/
def getField (j : Json) (key : String) : Option Json :=
  match j with
  | .obj fields => lookupField fields key
  | _ => none
where
  lookupField : List (String × Json) → String → Option Json
    | [], _ => none
    | (k, v) :: rest, key => if k = key then some v else lookupField rest key

/-- `dict[key] = value`: replace the value in place if the key exists,
else append the new pair (Python dict insertion-order semantics). -/
def setField (j : Json) (key : String) (v : Json) : Json :=
  match j with
  | .obj fields => .obj (setIn fields key v)
  | other => other
where
  setIn : List (String × Json) → String → Json → List (String × Json)
    | [], key, v => [(key, v)]
    | (k, w) :: rest, key, v =>
        if k = key then (k, v) :: rest else (k, w) :: setIn rest key v

/-- Python truthiness of a JSON value: `None`, `False`, `0`, `""`, `[]`
and `{}` are falsy. -/
def isTruthy : Json → Bool
  | .null => false
  | .bool b => b
  | .num n => n != 0
  | .str s => s ≠ ""
  | .arr xs => !xs.isEmpty
  | .obj fields => !fields.isEmpty

/-- The string payload of a JSON string, `""` otherwise (the code only
applies this where the value is a string). -/
def asString : Json → String
  | .str s => s
  | _ => ""

/-- Whether the value is a JSON array (`isinstance(result, list)`). -/
def isArr : Json → Bool
  | .arr _ => true
  | _ => false

/-- Whether the value is a non-empty JSON array
(`isinstance(result, list) and len(result) > 0`). -/
def isNonEmptyArr : Json → Bool
  | .arr (_ :: _) => true
  | _ => false

end Json

/-! ## Python string helpers -/

/-- The ASCII whitespace characters matched by Python's `str.strip()` and
by `\s` in the hover patterns (the claims involve only ASCII text). -/
def pyIsSpace (c : Char) : Bool :=
  c = ' ' || c = '\t' || c = '\n' || c = '\r' || c = '\x0b' || c = '\x0c'

/-- Python `str.strip()` on a character list. -/
def pyStripChars (cs : List Char) : List Char :=
  ((cs.dropWhile pyIsSpace).reverse.dropWhile pyIsSpace).reverse

/-- Python `str.strip()`. -/
def pyStrip (s : String) : String :=
  String.mk (pyStripChars s.toList)

/-- Python `str.split(sep)` (no maxsplit): all fields, empty fields kept. -/
def pySplitAll (sep : Char) : List Char → List (List Char)
  | [] => [[]]
  | c :: rest =>
      if c = sep then [] :: pySplitAll sep rest
      else
        match pySplitAll sep rest with
        | h :: t => (c :: h) :: t
        | [] => [[c]]

/-- Python `str.split(sep, maxsplit)`: at most `maxsplit` splits, empty
fields kept. -/
def pySplitMax (sep : Char) : Nat → List Char → List (List Char)
  | 0, cs => [cs]
  | Nat.succ n, cs =>
      match splitOnce cs with
      | none => [cs]
      | some (a, b) => a :: pySplitMax sep n b
where
  splitOnce : List Char → Option (List Char × List Char)
    | [] => none
    | c :: rest =>
        if c = sep then some ([], rest)
        else
          match splitOnce rest with
          | none => none
          | some (a, b) => some (c :: a, b)

/-- Python `x or y` on an optional JSON value (`None` and falsy values
select the default). -/
def pyOr (x : Option Json) (default : Json) : Json :=
  match x with
  | some j => if j.isTruthy then j else default
  | none => default

/-- Python `str.lower()` (ASCII case mapping; the claims involve only
ASCII text). -/
def pyLower (s : String) : String :=
  String.mk (s.toList.map Char.toLower)

/-- Python `str.endswith(suffix)`. -/
def pyEndsWith (s suffix : String) : Bool :=
  suffix.toList.isSuffixOf s.toList

/-- One pass of Python `str.replace(pat, repl)` (all non-overlapping
occurrences, scanned left to right), with list-length fuel so the
definition is structural.  Never called with an empty pattern. -/
def pyReplaceGo (pat repl : List Char) : Nat → List Char → List Char
  | _, [] => []
  | 0, cs => cs
  | f + 1, c :: rest =>
      if !pat.isEmpty && pat.isPrefixOf (c :: rest) then
        repl ++ pyReplaceGo pat repl f (rest.drop (pat.length - 1))
      else c :: pyReplaceGo pat repl f rest

/-- Python `str.replace(pat, repl)`. -/
def pyReplace (s pat repl : String) : String :=
  String.mk (pyReplaceGo pat.toList repl.toList s.toList.length s.toList)

/-! ## The hover extraction patterns (`_extract_symbol_from_hover`)

The five regular expressions are compiled by hand.  Their capturing group
is always `("[^"]+"|[A-Za-z_][A-Za-z0-9_]*)`.  Each quantifier in the
patterns is followed by a character its repeated class cannot match
(`\s+` by a letter or the group, `[^)]+` by `)`, `[^"]+` by `"`), so
greedy maximal munch is complete: no backtracking on the quantifiers can
ever turn a failure into a success, and this straight-line implementation
has exactly the semantics of `re.search` on these patterns. -/

/-- `[A-Za-z_]` — ASCII, exactly as in the patterns. -/
def isIdentStart (c : Char) : Bool :=
  ('A' ≤ c && c ≤ 'Z') || ('a' ≤ c && c ≤ 'z') || c = '_'

/-- `[A-Za-z0-9_]`. -/
def isIdentCont (c : Char) : Bool :=
  isIdentStart c || ('0' ≤ c && c ≤ '9')

/-- Match a literal string prefix, returning the rest. -/
def matchLit : List Char → List Char → Option (List Char)
  | [], cs => some cs
  | _ :: _, [] => none
  | l :: ls, c :: cs => if c = l then matchLit ls cs else none

/-- `\s+` (greedy; the following pattern element is never whitespace). -/
def matchWs1 (cs : List Char) : Option (List Char) :=
  match cs with
  | c :: rest => if pyIsSpace c then some (rest.dropWhile pyIsSpace) else none
  | [] => none

/-- `\s*` (greedy; the following pattern element is never whitespace). -/
def matchWs0 (cs : List Char) : List Char :=
  cs.dropWhile pyIsSpace

/-- The capturing group `("[^"]+"|[A-Za-z_][A-Za-z0-9_]*)`: returns the
captured text (quotes included, as in Python) and the rest.  The quoted
alternative is preferred; when it fails at a `"` the identifier
alternative cannot start there either, so the group fails. -/
def matchGroup : List Char → Option (List Char × List Char)
  | [] => none
  | c :: rest =>
      if c = '"' then
        let inner := rest.takeWhile (fun d => d ≠ '"')
        let rest2 := rest.dropWhile (fun d => d ≠ '"')
        match inner, rest2 with
        | _ :: _, '"' :: rest3 => some ('"' :: inner ++ ['"'], rest3)
        | _, _ => none
      else if isIdentStart c then
        some (c :: rest.takeWhile isIdentCont, rest.dropWhile isIdentCont)
      else none

/-- `procedure\s+GROUP` at the current position. -/
def matchProcCore (cs : List Char) : Option (List Char) := do
  let r ← matchLit "procedure".toList cs
  let r ← matchWs1 r
  let (cap, _) ← matchGroup r
  pure cap

/-- Pattern 1, `(?:local\s+)?procedure\s+GROUP`, at the current
position: the optional `local\s+` is tried first, as `re` does. -/
def p1At (cs : List Char) : Option (List Char) :=
  (do
    let r ← matchLit "local".toList cs
    let r ← matchWs1 r
    matchProcCore r) <|> matchProcCore cs

/-- Pattern 2, `trigger\s+GROUP`, at the current position. -/
def p2At (cs : List Char) : Option (List Char) := do
  let r ← matchLit "trigger".toList cs
  let r ← matchWs1 r
  let (cap, _) ← matchGroup r
  pure cap

/-- Pattern 3, `field\s*\([^)]+\)\s+GROUP`, at the current position. -/
def p3At (cs : List Char) : Option (List Char) := do
  let r ← matchLit "field".toList cs
  let r := matchWs0 r
  let r ← matchLit "(".toList r
  let inner := r.takeWhile (fun d => d ≠ ')')
  let r2 := r.dropWhile (fun d => d ≠ ')')
  match inner, r2 with
  | _ :: _, ')' :: r3 =>
      let r4 ← matchWs1 r3
      let (cap, _) ← matchGroup r4
      pure cap
  | _, _ => none

/-- Pattern 4, `var\s+GROUP\s*:`, at the current position. -/
def p4At (cs : List Char) : Option (List Char) := do
  let r ← matchLit "var".toList cs
  let r ← matchWs1 r
  let (cap, rest) ← matchGroup r
  match matchWs0 rest with
  | ':' :: _ => pure cap
  | _ => none

/-- `re.search`: try the position matcher at every position, left to
right. -/
def reSearch (atPos : List Char → Option (List Char)) : List Char → Option (List Char)
  | [] => atPos []
  | c :: rest => atPos (c :: rest) <|> reSearch atPos rest

/-- Pattern 5, `^[^A-Za-z_"]*GROUP`: anchored, so no position scan.  The
star is maximal-munch; shrinking it would put the group at a character
that starts neither alternative, so no backtracking applies. -/
def p5Anchored (cs : List Char) : Option (List Char) :=
  (matchGroup (cs.dropWhile (fun c => !(isIdentStart c || c = '"')))).map (·.1)

/-- The capture of the first pattern (in the source's order) that
matches the hover content, exactly as the `for pattern in patterns`
loop finds it. -/
def firstPatternCapture (content : String) : Option (List Char) :=
  let cs := content.toList
  reSearch p1At cs <|> reSearch p2At cs <|> reSearch p3At cs <|>
    reSearch p4At cs <|> p5Anchored cs

/-- `name.startswith('"') and name.endswith('"')`. -/
def startsEndsQuote (l : List Char) : Bool :=
  (l.head? = some '"') && (l.getLast? = some '"')

/-- The content-unwrapping prologue of `_extract_symbol_from_hover`:
the hover contents are either a dict with a `value` or a bare string
(anything else contributes no text). -/
def hoverContentOf (hover_result : Json) : String :=
  let contents := (hover_result.getField "contents").getD (Json.obj [])
  match contents with
  | Json.obj _ => ((contents.getField "value").getD (Json.str "")).asString
  | Json.str s => s
  | _ => ""

/-- `ALLSPWrapper._extract_symbol_from_hover`: unwrap the hover contents,
find the first pattern capture, and strip surrounding double quotes.
Returns `""` when nothing matches. -/
def extract_symbol_from_hover (hover_result : Json) : String :=
  let content := hoverContentOf hover_result
  if content = "" then ""
  else
    match firstPatternCapture content with
    | none => ""
    | some name =>
        if startsEndsQuote name then String.mk ((name.drop 1).dropLast)
        else String.mk name

/-! ## Symbol outlines (`_clean_symbol_name`, `_find_symbol_location`) -/

/-- `ALLSPWrapper._clean_symbol_name`: drop a trailing parameter list.
`str.find` returns the first index of `"("`; only a strictly positive
index triggers the cut (a leading `"("` is left alone), and the kept
part is stripped. -/
def clean_symbol_name (name : String) : String :=
  let cs := name.toList
  match cs.findIdx? (fun c => c = '(') with
  | some idx => if idx > 0 then String.mk (pyStripChars (cs.take idx)) else name
  | none => name

/-- The name-match test of `_find_symbol_location`:
`name.lower() == symbol_name.lower() or cleaned.lower() == symbol_name.lower()`. -/
def symbolNameMatches (name symbol_name : String) : Bool :=
  pyLower name = pyLower symbol_name ||
    pyLower (clean_symbol_name name) = pyLower symbol_name

/-- One symbol's location pick, used when its name matched: prefer the
`location` field (SymbolInformation format), else `selectionRange`, else
`range`, the latter two wrapped with the requesting document's URI.
`none` when the node carries none of the three keys (the source then
falls through to the children). -/
def symbolLocationPick (sym : Json) (file_uri : String) : Option Json :=
  match sym.getField "location" with
  | some loc => some loc
  | none =>
      match sym.getField "selectionRange" with
      | some sel => some (Json.obj [("uri", Json.str file_uri), ("range", sel)])
      | none =>
          match sym.getField "range" with
          | some rng => some (Json.obj [("uri", Json.str file_uri), ("range", rng)])
          | none => none

/-- `ALLSPWrapper._find_symbol_location`, fuelled: depth-first walk of
the outline.  For each node in order: if the name (raw or with the
parameter list stripped) matches case-insensitively, return its location
pick; otherwise (or when the node has no location-bearing key) descend
into truthy `children`, then continue with the following siblings.  A
non-array argument yields `none` (in the source a non-list here raises,
which the fallback's `except` turns into `None`).  The fuel only bounds
the recursion depth; `find_symbol_location` below supplies a bound that
is always sufficient. -/
def findLocFuel : Nat → Json → String → String → Option Json
  | 0, _, _, _ => none
  | _ + 1, Json.arr [], _, _ => none
  | fuel + 1, Json.arr (sym :: rest), symbol_name, file_uri =>
      let name := ((sym.getField "name").getD (Json.str "")).asString
      let hit :=
        if symbolNameMatches name symbol_name then symbolLocationPick sym file_uri
        else none
      match hit with
      | some r => some r
      | none =>
          let children := (sym.getField "children").getD (Json.arr [])
          match (if children.isTruthy then findLocFuel fuel children symbol_name file_uri
                 else none) with
          | some r => some r
          | none => findLocFuel fuel (Json.arr rest) symbol_name file_uri
  | _ + 1, _, _, _ => none

/-- A size bound on JSON, used only as recursion fuel. -/
def jsonFuel : Json → Nat
  | .arr xs => 1 + fuelList xs
  | .obj fields => 1 + fuelFields fields
  | _ => 1
where
  fuelList : List Json → Nat
    | [] => 0
    | x :: xs => 1 + jsonFuel x + fuelList xs
  fuelFields : List (String × Json) → Nat
    | [] => 0
    | (_, v) :: fs => 1 + jsonFuel v + fuelFields fs

/-- `ALLSPWrapper._find_symbol_location`. -/
def find_symbol_location (symbols : Json) (symbol_name file_uri : String) : Option Json :=
  findLocFuel (jsonFuel symbols) symbols symbol_name file_uri

/-- `ALLSPWrapper._is_empty_definition_result`: `None` or an empty
list. -/
def is_empty_definition_result : Json → Bool
  | .null => true
  | .arr [] => true
  | _ => false

/-! ## Paths and the project resolver (`find_project_for_file`)

A filesystem path is its list of components, **leaf first**, so that
`Path.parent` is `List.tail` and the filesystem root is `[]` (its own
parent, exactly the loop guard `current != current.parent`). -/

/-- A filesystem path, components leaf first (`[]` = the root). -/
abbrev FsPath := List String

/-- Rendering of a path (only used inside message payloads, whose
contents no claim inspects beyond equality). -/
def FsPath.render (p : FsPath) : String :=
  "/" ++ String.intercalate "/" p.reverse

/-- `Path.as_uri()`. -/
def FsPath.asUri (p : FsPath) : String :=
  "file://" ++ p.render

/-- `Path(...).name`: the leaf component. -/
def FsPath.leafName (p : FsPath) : String :=
  p.headD ""

/-- The upward walk of `find_project_for_file`: starting from a
directory, return the first (deepest) directory on the way to the root
that contains `app.json`; the filesystem root itself is never
examined. -/
def walkUpForAppJson (hasAppJson : FsPath → Bool) : FsPath → Option FsPath
  | [] => none
  | c :: rest =>
      if hasAppJson (c :: rest) then some (c :: rest)
      else walkUpForAppJson hasAppJson rest

/-- `find_project_for_file`: walk up from the file's containing
directory (`Path(file_path).parent`, i.e. `tail`) looking for
`app.json`. -/
def find_project_for_file (hasAppJson : FsPath → Bool) (file_path : FsPath) : Option FsPath :=
  walkUpForAppJson hasAppJson file_path.tail

/-! ## The wrapper state machine

`ALLSPWrapper`'s mutable fields become the record `St`; each method
becomes a function `… → St → result × St`.  Every message written to a
backend is appended to `St.trace`.  The black-box collaborators live in
`Env`: the primary backend (`backend m p` is the outcome of one
request round trip — `none` for a timeout / no response; in-model round
trips do not raise, cf. `check_project_loaded_outcome`), the
call-hierarchy backend (`chBackend`), the filesystem, and — per spec §1,
explicitly out of scope — executable discovery (`callHierarchyExe`),
process start (`chStartOk`), the downward manifest scan of
`find_al_project` (`findAlProject`), `os.getpid()` (`pid`), path
parsing/normalisation (`parsePath`, `uriToPath`, `resolve`, `cwd`), and
the number of iterations the wall clock allows a polling loop with the
given timeout (`pollFuel`). -/

/-- The secondary (call-hierarchy) backend handle: `CallHierarchyServer`'s
own mutable fields. -/
structure CHState where
  alive : Bool
  initialized : Bool
  requestId : Nat
  rootUri : Option String
deriving Repr, DecidableEq

/-- A message written to one of the two backends. -/
inductive Msg where
  | req : String → Json → Msg
  | note : String → Json → Msg
  | chReq : String → Json → Msg
  | chNote : String → Json → Msg
deriving Repr

/-- `ALLSPWrapper`'s mutable fields.  `rootPath` and `workspaceRoot` use
`""` for Python's `None` (the source only ever tests their truthiness
and `""` is equally falsy). -/
structure St where
  trace : List Msg := []
  requestId : Nat := 0
  initializedFlag : Bool := false
  workspaceRoot : String := ""
  rootPath : String := ""
  rootUri : Option String := none
  openedFiles : List String := []
  initializedProjects : List FsPath := []
  callHierarchy : Option CHState := none
deriving Repr

/-- The black-box collaborators (see the section comment). -/
structure Env where
  hasAppJson : FsPath → Bool
  readFile : FsPath → Option String
  uriToPath : String → FsPath
  parsePath : String → FsPath
  resolve : FsPath → FsPath
  cwd : FsPath
  pid : Int
  backend : String → Json → Option Json
  chBackend : String → Json → Option Json
  findAlProject : String → Option String
  callHierarchyExe : Option String
  chStartOk : Bool
  pollFuel : Nat → Nat

/-- Append one sent message to the trace. -/
def St.emit (s : St) (m : Msg) : St :=
  { s with trace := s.trace ++ [m] }

/-- `set.add` (idempotent). -/
def St.addProject (s : St) (p : FsPath) : St :=
  if p ∈ s.initializedProjects then s
  else { s with initializedProjects := s.initializedProjects ++ [p] }

/-- `ALLSPWrapper.send_request`: allocate the next identifier, write the
request, and return the correlated response (or `none`). -/
def sendRequestSt (env : Env) (method : String) (params : Json) (s : St) :
    Option Json × St :=
  let s := { s with requestId := s.requestId + 1 }
  (env.backend method params, s.emit (Msg.req method params))

/-- `ALLSPWrapper.send_notification`. -/
def sendNotificationSt (method : String) (params : Json) (s : St) : St :=
  s.emit (Msg.note method params)

/-- `params["textDocument"]["uri"]`. -/
def textDocumentUri (params : Json) : String :=
  ((((params.getField "textDocument").getD Json.null).getField "uri").getD
    (Json.str "")).asString

/-- A `textDocument/didOpen` params payload. -/
def didOpenParams (uri languageId text : String) : Json :=
  Json.obj [("textDocument", Json.obj [
    ("uri", Json.str uri), ("languageId", Json.str languageId),
    ("version", Json.num 1), ("text", Json.str text)])]

/-- `ALLSPWrapper._ensure_file_opened`: open the document once per
session; a failed read (the `except` branch) opens nothing and records
nothing. -/
def ensure_file_opened (env : Env) (uri : String) (s : St) : St :=
  if uri ∈ s.openedFiles then s
  else
    match env.readFile (env.uriToPath uri) with
    | some content =>
        let s := sendNotificationSt "textDocument/didOpen"
          (didOpenParams uri "al" content) s
        { s with openedFiles := s.openedFiles ++ [uri] }
    | none => s

/-- The `workspace/didChangeConfiguration` payload sent for a project
(identical in `_post_initialize` and `_ensure_project_initialized`). -/
def alConfigurationSettings (workspacePath : String) : Json :=
  Json.obj [("settings", Json.obj [
    ("workspacePath", Json.str workspacePath),
    ("alResourceConfigurationSettings", Json.obj [
      ("assemblyProbingPaths", Json.arr [Json.str "./.netpackages"]),
      ("codeAnalyzers", Json.arr []),
      ("enableCodeAnalysis", Json.bool false),
      ("backgroundCodeAnalysis", Json.str "Project"),
      ("packageCachePaths", Json.arr [Json.str "./.alpackages"]),
      ("ruleSetPath", Json.null),
      ("enableCodeActions", Json.bool true),
      ("incrementalBuild", Json.bool false),
      ("outputAnalyzerStatistics", Json.bool true),
      ("enableExternalRulesets", Json.bool true)]),
    ("setActiveWorkspace", Json.bool true),
    ("expectedProjectReferenceDefinitions", Json.arr []),
    ("activeWorkspaceClosure", Json.arr [Json.str workspacePath])])]

/-- The `al/setActiveWorkspace` params payload. -/
def setActiveWorkspaceParams (uri name workspacePath : String) : Json :=
  Json.obj [
    ("currentWorkspaceFolderPath", Json.obj [
      ("uri", Json.str uri), ("name", Json.str name), ("index", Json.num 0)]),
    ("settings", Json.obj [
      ("workspacePath", Json.str workspacePath),
      ("setActiveWorkspace", Json.bool true)])]

/-- `ALLSPWrapper._ensure_project_initialized`: resolve the owning
project of the file; if it is already recorded, return it immediately;
otherwise send the configuration notification, open the manifest if it
exists and is readable, issue `al/setActiveWorkspace`, and record the
root. -/
def ensure_project_initialized (env : Env) (file_uri : String) (s : St) :
    Option FsPath × St :=
  let file_path := env.uriToPath file_uri
  match find_project_for_file env.hasAppJson file_path with
  | none => (none, s)
  | some pr =>
      let project_root := env.resolve pr
      if project_root ∈ s.initializedProjects then (some project_root, s)
      else
        let wp := project_root.render
        let s := sendNotificationSt "workspace/didChangeConfiguration"
          (alConfigurationSettings wp) s
        let s :=
          if env.hasAppJson project_root then
            match env.readFile ("app.json" :: project_root) with
            | some content =>
                sendNotificationSt "textDocument/didOpen"
                  (didOpenParams (FsPath.asUri ("app.json" :: project_root))
                    "json" content) s
            | none => s
          else s
        let (_, s) := sendRequestSt env "al/setActiveWorkspace"
          (setActiveWorkspaceParams (FsPath.asUri (env.resolve project_root))
            project_root.leafName wp) s
        (some project_root, s.addProject project_root)

/-- `ALLSPWrapper.check_project_loaded`, as a function of the outcome of
the readiness round trip: `Except.error` is the `except` branch (the
check itself raised), `Except.ok r` the `try` body with response `r`.
The returned JSON value is what the Python function returns (callers
test its truthiness). -/
def check_project_loaded_outcome (outcome : Except Unit (Option Json)) : Json :=
  match outcome with
  | .error _ => Json.bool true
  | .ok response =>
      match response with
      | some resp =>
          if resp.isTruthy then
            match resp.getField "result" with
            | some result =>
                match result with
                | Json.bool b => Json.bool b
                | Json.obj _ => (result.getField "loaded").getD (Json.bool false)
                | Json.null => Json.bool true
                | _ => Json.bool false
            | none => Json.bool false
          else Json.bool false
      | none => Json.bool false

/-- `ALLSPWrapper.check_project_loaded` in the session model (a modelled
round trip never raises, so the outcome is always `Except.ok`). -/
def check_project_loaded (env : Env) (s : St) : Json × St :=
  let (r, s) := sendRequestSt env "al/hasProjectClosureLoadedRequest" (Json.obj []) s
  (check_project_loaded_outcome (Except.ok r), s)

/-- `ALLSPWrapper._wait_for_project_load`: poll until loaded or the
deadline; `fuel` is the number of iterations the wall clock allows
(`Env.pollFuel timeout`). -/
def wait_for_project_load (env : Env) (fuel : Nat) (s : St) : Bool × St :=
  match fuel with
  | 0 => (false, s)
  | f + 1 =>
      let (loaded, s) := check_project_loaded env s
      if loaded.isTruthy then (true, s) else wait_for_project_load env f s

/-- The `textDocumentPositionParams` wrapper of `al/gotodefinition`. -/
def alDefinitionParams (params : Json) : Json :=
  Json.obj [("textDocumentPositionParams", Json.obj [
    ("textDocument", (params.getField "textDocument").getD Json.null),
    ("position", (params.getField "position").getD Json.null)])]

/-- The hover params reused by the fallback. -/
def hoverPositionParams (params : Json) : Json :=
  Json.obj [
    ("textDocument", (params.getField "textDocument").getD Json.null),
    ("position", (params.getField "position").getD Json.null)]

/-- `ALLSPWrapper._try_document_symbol_fallback`: hover at the position,
extract a symbol name, fetch the document outline and search it.  Every
failure step returns `none`. -/
def try_document_symbol_fallback (env : Env) (params : Json) (s : St) :
    Option Json × St :=
  let (hover_response, s) :=
    sendRequestSt env "textDocument/hover" (hoverPositionParams params) s
  match hover_response with
  | none => (none, s)
  | some hr =>
      if !hr.isTruthy then (none, s)
      else
        match hr.getField "result" with
        | none => (none, s)
        | some hover_result =>
            if !hover_result.isTruthy then (none, s)
            else
              let symbol_name := extract_symbol_from_hover hover_result
              if symbol_name = "" then (none, s)
              else
                let (symbols_response, s) := sendRequestSt env
                  "textDocument/documentSymbol"
                  (Json.obj [("textDocument",
                    (params.getField "textDocument").getD Json.null)]) s
                match symbols_response with
                | none => (none, s)
                | some sr =>
                    if !sr.isTruthy then (none, s)
                    else
                      match sr.getField "result" with
                      | none => (none, s)
                      | some symbols =>
                          if !symbols.isTruthy then (none, s)
                          else
                            (find_symbol_location symbols symbol_name
                              (textDocumentUri params), s)

/-- The final fallback of `handle_definition`:
`return self.send_request("textDocument/definition", params) or {}`. -/
def definition_standard_fallback (env : Env) (params : Json) (s : St) :
    Json × St :=
  let (r, s) := sendRequestSt env "textDocument/definition" params s
  (pyOr r (Json.obj []), s)

/-- `ALLSPWrapper.handle_definition`: try `al/gotodefinition`; on an
empty result run the document-symbol fallback; on fallback failure
return the original (empty) response unchanged; without a usable
`al/gotodefinition` response fall back to the standard method. -/
def handle_definition (env : Env) (params : Json) (s : St) : Json × St :=
  let uri := textDocumentUri params
  let (_, s) := ensure_project_initialized env uri s
  let s := ensure_file_opened env uri s
  let (response, s) := sendRequestSt env "al/gotodefinition"
    (alDefinitionParams params) s
  match response with
  | some r =>
      if r.isTruthy then
        match r.getField "result" with
        | some result =>
            if !(is_empty_definition_result result) then (r, s)
            else
              let (fallback_location, s) := try_document_symbol_fallback env params s
              match fallback_location with
              | some loc =>
                  (Json.obj [("jsonrpc", Json.str "2.0"), ("result", loc)], s)
              | none => (r, s)
        | none => definition_standard_fallback env params s
      else definition_standard_fallback env params s
  | none => definition_standard_fallback env params s

/-- The shared body of `handle_hover` / `handle_document_symbol` /
`handle_references`: ensure project and document, forward, `or {}`. -/
def handle_simple_forward (env : Env) (method : String) (params : Json)
    (s : St) : Json × St :=
  let uri := textDocumentUri params
  let (_, s) := ensure_project_initialized env uri s
  let s := ensure_file_opened env uri s
  let (r, s) := sendRequestSt env method params s
  (pyOr r (Json.obj []), s)

/-- `ALLSPWrapper.handle_hover`. -/
def handle_hover (env : Env) (params : Json) (s : St) : Json × St :=
  handle_simple_forward env "textDocument/hover" params s

/-- `ALLSPWrapper.handle_document_symbol`. -/
def handle_document_symbol (env : Env) (params : Json) (s : St) : Json × St :=
  handle_simple_forward env "textDocument/documentSymbol" params s

/-- `ALLSPWrapper.handle_references`. -/
def handle_references (env : Env) (params : Json) (s : St) : Json × St :=
  handle_simple_forward env "textDocument/references" params s

/-! ## `handle_workspace_symbol` -/

/-- The error response for an empty workspace-symbol query
(JSON-RPC `-32602`, invalid params), message verbatim from the source. -/
def emptyQueryError : Json :=
  Json.obj [("jsonrpc", Json.str "2.0"),
    ("error", Json.obj [
      ("code", Json.num (-32602)),
      ("message", Json.str ("workspaceSymbol received empty query. This is a known Claude Code LSP tool bug - "
        ++ "the tool doesn\x27t pass the \x27query\x27 parameter needed for symbol search. "
        ++ "WORKAROUND: Use \x27documentSymbol\x27 to list symbols in a specific file, "
        ++ "or use Grep to search for symbol names across the workspace."))])]

/-- The file-path-to-search-term rewrite of `handle_workspace_symbol`:
when the query contains a path separator or ends in `.al`, take the last
path segment, strip the `.al` extension, split on the first two spaces
and keep the third part if the split produced three parts, else the
whole stripped filename. -/
def rewriteQuery (query : String) : String :=
  if query.toList.contains '\\' || query.toList.contains '/'
      || pyEndsWith query ".al" then
    let filename :=
      (pySplitAll '/' (query.toList.map (fun c => if c = '\\' then '/' else c))).getLastD []
    let filename :=
      if pyEndsWith (String.mk filename) ".al" then filename.take (filename.length - 3)
      else filename
    let parts := pySplitMax ' ' 2 filename
    if parts.length ≥ 3 then String.mk (parts.getD 2 []) else String.mk filename
  else query

/-- The always-an-array empty result
(`{"jsonrpc": "2.0", "result": []}`). -/
def emptyWorkspaceSymbolResult : Json :=
  Json.obj [("jsonrpc", Json.str "2.0"), ("result", Json.arr [])]

/-- The `al/symbolSearch` leg of `handle_workspace_symbol`, entered when
the standard method produced no non-empty list: same non-empty-list
test, else the canonical empty-array response. -/
def workspace_symbol_al_fallback (env : Env) (query : String) (s : St) :
    Json × St :=
  let (al_response, s) := sendRequestSt env "al/symbolSearch"
    (Json.obj [("query", Json.str query)]) s
  match al_response with
  | some r =>
      if r.isTruthy then
        match r.getField "result" with
        | some al_result =>
            if al_result.isNonEmptyArr then (r, s)
            else (emptyWorkspaceSymbolResult, s)
        | none => (emptyWorkspaceSymbolResult, s)
      else (emptyWorkspaceSymbolResult, s)
  | none => (emptyWorkspaceSymbolResult, s)

/-- `ALLSPWrapper.handle_workspace_symbol`: reject an empty (after
stripping) query with `-32602` before touching any backend; rewrite a
path-shaped query; make sure the initial project is initialized and
loaded; try `workspace/symbol`, then `al/symbolSearch`, and fall back to
the empty-array response. -/
def handle_workspace_symbol (env : Env) (params : Json) (s : St) : Json × St :=
  let query := ((params.getField "query").getD (Json.str "")).asString
  if query = "" || pyStrip query = "" then (emptyQueryError, s)
  else
    let query := rewriteQuery query
    let s :=
      if s.rootPath ≠ "" then
        let dummy_uri := FsPath.asUri (env.parsePath s.rootPath) ++ "/app.json"
        (ensure_project_initialized env dummy_uri s).2
      else s
    let (_, s) := wait_for_project_load env (env.pollFuel 3) s
    let (response, s) := sendRequestSt env "workspace/symbol"
      (Json.obj [("query", Json.str query)]) s
    match response with
    | some r =>
        if r.isTruthy then
          match r.getField "result" with
          | some result =>
              if result.isNonEmptyArr then (r, s)
              else workspace_symbol_al_fallback env query s
          | none => workspace_symbol_al_fallback env query s
        else workspace_symbol_al_fallback env query s
    | none => workspace_symbol_al_fallback env query s

/-! ## The call-hierarchy bridge (`CallHierarchyServer`) -/

/-- `CallHierarchyServer.send_request` followed by `read_message`: dead
process means no message is written and `None` is returned; otherwise
allocate the next identifier, write the request and return the
response-or-timeout outcome. -/
def ch_send_request (env : Env) (ch : CHState) (method : String)
    (params : Json) (s : St) : Option Json × CHState × St :=
  if ch.alive then
    let ch := { ch with requestId := ch.requestId + 1 }
    let s := s.emit (Msg.chReq method params)
    (env.chBackend method params, ch, s)
  else (none, ch, s)

/-- `CallHierarchyServer.send_notification` (written only while the
process is alive). -/
def ch_send_notification (ch : CHState) (method : String) (params : Json)
    (s : St) : St :=
  if ch.alive then s.emit (Msg.chNote method params) else s

/-- `CallHierarchyServer.initialize`: handshake with the secondary
backend; succeeds only when the response advertises
`callHierarchyProvider`, in which case the `initialized` notification is
sent and the handle is marked initialized. -/
def ch_initialize (env : Env) (ch : CHState) (root_uri : String)
    (workspace_folders : Json) (s : St) : Bool × CHState × St :=
  if ch.initialized then (true, ch, s)
  else
    let ch := { ch with rootUri := some root_uri }
    let (response, ch, s) := ch_send_request env ch "initialize"
      (Json.obj [("processId", Json.num env.pid),
        ("capabilities", Json.obj []),
        ("rootUri", Json.str root_uri),
        ("workspaceFolders", workspace_folders)]) s
    match response with
    | some resp =>
        if resp.isTruthy then
          match resp.getField "result" with
          | some result =>
              let caps := (result.getField "capabilities").getD (Json.obj [])
              if ((caps.getField "callHierarchyProvider").getD Json.null).isTruthy then
                let s := ch_send_notification ch "initialized" (Json.obj []) s
                (true, { ch with initialized := true }, s)
              else (false, ch, s)
          | none => (false, ch, s)
        else (false, ch, s)
    | none => (false, ch, s)

/-- `CallHierarchyServer.request`: dead process yields `None`, otherwise
one round trip (an error response is logged and passed through). -/
def ch_request (env : Env) (ch : CHState) (method : String) (params : Json)
    (s : St) : Option Json × CHState × St :=
  if !ch.alive then (none, ch, s)
  else ch_send_request env ch method params s

/-- `CallHierarchyServer.shutdown`: send the LSP shutdown sequence while
alive, then stop. -/
def ch_shutdown (env : Env) (ch : CHState) (s : St) : St :=
  if ch.alive then
    let (_, ch, s) := ch_send_request env ch "shutdown" (Json.obj []) s
    ch_send_notification ch "exit" (Json.obj []) s
  else s

/-- `ALLSPWrapper._start_call_hierarchy_server`: discovery and process
start are black boxes (`Env.callHierarchyExe`, `Env.chStartOk`, spec
§1); on a started process, initialize against the full workspace root
(falling back to the project root), tearing the bridge down on a failed
handshake. -/
def start_call_hierarchy_server (env : Env) (s : St) : St :=
  match env.callHierarchyExe with
  | none => s
  | some _ =>
      if !env.chStartOk then { s with callHierarchy := none }
      else
        let ch : CHState :=
          { alive := true, initialized := false, requestId := 0, rootUri := none }
        let workspace_path :=
          if s.workspaceRoot ≠ "" then s.workspaceRoot else s.rootPath
        if workspace_path ≠ "" then
          let workspace_uri := FsPath.asUri (env.parsePath workspace_path)
          let workspace_folders := Json.arr [Json.obj [
            ("uri", Json.str workspace_uri),
            ("name", Json.str (env.parsePath workspace_path).leafName)]]
          let (ok, ch, s) := ch_initialize env ch workspace_uri workspace_folders s
          if ok then { s with callHierarchy := some ch }
          else { s with callHierarchy := none }
        else { s with callHierarchy := some ch }

/-! ## `initialize` and `process_request` -/

/-- `list(range(1, 27))`. -/
def valueSet1to26 : Json :=
  Json.arr ((List.range 26).map (fun i => Json.num (Int.ofNat i + 1)))

/-- `ALLSPWrapper._build_initialize_params`: the rewritten capability
payload sent to the primary backend. -/
def build_initialize_params (env : Env) (rootPath : String) : Json :=
  let root := if rootPath ≠ "" then env.resolve (env.parsePath rootPath) else env.cwd
  let root_uri := FsPath.asUri root
  let dynReg := Json.obj [("dynamicRegistration", Json.bool true)]
  Json.obj [
    ("processId", Json.num env.pid),
    ("rootPath", Json.str root.render),
    ("rootUri", Json.str root_uri),
    ("capabilities", Json.obj [
      ("workspace", Json.obj [
        ("applyEdit", Json.bool true),
        ("workspaceEdit", Json.obj [
          ("documentChanges", Json.bool true),
          ("resourceOperations", Json.arr [Json.str "create", Json.str "rename", Json.str "delete"]),
          ("failureHandling", Json.str "textOnlyTransactional"),
          ("normalizesLineEndings", Json.bool true)]),
        ("configuration", Json.bool true),
        ("didChangeWatchedFiles", dynReg),
        ("symbol", Json.obj [
          ("dynamicRegistration", Json.bool true),
          ("symbolKind", Json.obj [("valueSet", valueSet1to26)])]),
        ("executeCommand", dynReg),
        ("didChangeConfiguration", dynReg),
        ("workspaceFolders", Json.bool true)]),
      ("textDocument", Json.obj [
        ("synchronization", Json.obj [
          ("dynamicRegistration", Json.bool true),
          ("willSave", Json.bool true),
          ("willSaveWaitUntil", Json.bool true),
          ("didSave", Json.bool true)]),
        ("completion", Json.obj [
          ("dynamicRegistration", Json.bool true),
          ("contextSupport", Json.bool true),
          ("completionItem", Json.obj [
            ("snippetSupport", Json.bool true),
            ("commitCharactersSupport", Json.bool true),
            ("documentationFormat", Json.arr [Json.str "markdown", Json.str "plaintext"]),
            ("deprecatedSupport", Json.bool true),
            ("preselectSupport", Json.bool true)])]),
        ("hover", Json.obj [
          ("dynamicRegistration", Json.bool true),
          ("contentFormat", Json.arr [Json.str "markdown", Json.str "plaintext"])]),
        ("definition", Json.obj [
          ("dynamicRegistration", Json.bool true),
          ("linkSupport", Json.bool true)]),
        ("references", dynReg),
        ("documentHighlight", dynReg),
        ("documentSymbol", Json.obj [
          ("dynamicRegistration", Json.bool true),
          ("symbolKind", Json.obj [("valueSet", valueSet1to26)]),
          ("hierarchicalDocumentSymbolSupport", Json.bool true)]),
        ("codeAction", dynReg),
        ("formatting", dynReg),
        ("rangeFormatting", dynReg),
        ("rename", Json.obj [
          ("dynamicRegistration", Json.bool true),
          ("prepareSupport", Json.bool true)])]),
      ("window", Json.obj [
        ("showMessage", Json.obj [("messageActionItem",
          Json.obj [("additionalPropertiesSupport", Json.bool true)])]),
        ("showDocument", Json.obj [("support", Json.bool true)]),
        ("workDoneProgress", Json.bool true)])]),
    ("trace", Json.str "verbose"),
    ("workspaceFolders", Json.arr [Json.obj [
      ("uri", Json.str root_uri), ("name", Json.str root.leafName)]])]

/-- `ALLSPWrapper._post_initialize`: configuration, manifest open,
`al/setActiveWorkspace`, bounded wait for project load, record the
initial project, then start the call-hierarchy bridge. -/
def post_initialize (env : Env) (s : St) : St :=
  if s.rootPath = "" then s
  else
    let root := s.rootPath
    let s := sendNotificationSt "workspace/didChangeConfiguration"
      (alConfigurationSettings root) s
    let rootP := env.parsePath root
    let s :=
      if env.hasAppJson rootP then
        match env.readFile ("app.json" :: rootP) with
        | some content =>
            sendNotificationSt "textDocument/didOpen"
              (didOpenParams (FsPath.asUri ("app.json" :: rootP)) "json" content) s
        | none => s
      else s
    let (_, s) := sendRequestSt env "al/setActiveWorkspace"
      (setActiveWorkspaceParams (FsPath.asUri (env.resolve rootP))
        rootP.leafName root) s
    let (_, s) := wait_for_project_load env (env.pollFuel 5) s
    let s :=
      if s.rootPath ≠ "" then s.addProject (env.resolve (env.parsePath s.rootPath))
      else s
    start_call_hierarchy_server env s

/-- `ALLSPWrapper.initialize`: pick the workspace root from the client
params, auto-detect the AL project (`find_al_project`, a black-box
downward scan), negotiate with the primary backend using the rewritten
capabilities, and on success run the post-initialization sequence. -/
def wrapper_initialize (env : Env) (params : Json) (s : St) : Json × St :=
  let rootUriString :=
    pyReplace (pyReplace (((params.getField "rootUri").getD (Json.str "")).asString)
      "file:///" "") "file://" ""
  let workspace_root :=
    match params.getField "rootPath" with
    | some j => if j.isTruthy then j.asString else rootUriString
    | none => rootUriString
  let s := { s with workspaceRoot := workspace_root }
  let al_project :=
    if workspace_root ≠ "" then env.findAlProject workspace_root else none
  let s :=
    match al_project with
    | some p =>
        { s with rootPath := p, rootUri := some (FsPath.asUri (env.parsePath p)) }
    | none =>
        let s := { s with rootPath := workspace_root }
        let clientRootUri : Option String :=
          match params.getField "rootUri" with
          | some j => if j.isTruthy then some j.asString else none
          | none => none
        match clientRootUri with
        | some u => { s with rootUri := some u }
        | none =>
            if workspace_root ≠ "" then
              { s with rootUri := some (FsPath.asUri (env.parsePath workspace_root)) }
            else { s with rootUri := none }
  let al_params := build_initialize_params env s.rootPath
  let (response, s) := sendRequestSt env "initialize" al_params s
  let s :=
    match response with
    | some r =>
        if r.isTruthy then
          match r.getField "result" with
          | some _ =>
              let s := { s with initializedFlag := true }
              let s := sendNotificationSt "initialized" (Json.obj []) s
              post_initialize env s
          | none => s
        else s
    | none => s
  (pyOr response (Json.obj [("jsonrpc", Json.str "2.0"),
    ("id", (params.getField "id").getD (Json.num 0)),
    ("result", Json.obj [])]), s)

/-- `request.get("id")`: Python `None` both when the field is absent and
when its value is JSON `null`. -/
def requestIdOf (request : Json) : Option Json :=
  match request.getField "id" with
  | some Json.null => none
  | x => x

/-- `if response: response["id"] = request_id` (a Python `None`
identifier is written back as JSON `null`). -/
def respond_with_id (response : Json) (request_id : Option Json) : Json :=
  if response.isTruthy then response.setField "id" (request_id.getD Json.null)
  else response

/-- The `-32601` error response for an unavailable call-hierarchy
capability. -/
def chUnavailableError (request_id : Option Json) : Json :=
  Json.obj [("jsonrpc", Json.str "2.0"),
    ("id", request_id.getD Json.null),
    ("error", Json.obj [
      ("code", Json.num (-32601)),
      ("message", Json.str "Call hierarchy server not available")])]

/-- The three call-hierarchy method names. -/
def isCallHierarchyMethod (method : String) : Bool :=
  method = "textDocument/prepareCallHierarchy"
    || method = "callHierarchy/incomingCalls"
    || method = "callHierarchy/outgoingCalls"

/-- `ALLSPWrapper.process_request`: the router.  Returns `none` for a
notification (no response is written). -/
def process_request (env : Env) (request : Json) (s : St) : Option Json × St :=
  let method := ((request.getField "method").getD (Json.str "")).asString
  let params := (request.getField "params").getD (Json.obj [])
  let request_id := requestIdOf request
  if method = "initialize" then
    let (response, s) := wrapper_initialize env params s
    (some (respond_with_id response request_id), s)
  else if method = "textDocument/definition" then
    let (response, s) := handle_definition env params s
    (some (respond_with_id response request_id), s)
  else if method = "textDocument/documentSymbol" then
    let (response, s) := handle_document_symbol env params s
    (some (respond_with_id response request_id), s)
  else if method = "textDocument/hover" then
    let (response, s) := handle_hover env params s
    (some (respond_with_id response request_id), s)
  else if method = "workspace/symbol" then
    let (response, s) := handle_workspace_symbol env params s
    (some (respond_with_id response request_id), s)
  else if method = "textDocument/references" then
    let (response, s) := handle_references env params s
    (some (respond_with_id response request_id), s)
  else if method = "initialized" then
    (none, sendNotificationSt method params s)
  else if isCallHierarchyMethod method then
    match s.callHierarchy with
    | some ch =>
        if ch.initialized then
          let (response, ch, s) := ch_request env ch method params s
          let s := { s with callHierarchy := some ch }
          match response with
          | some r =>
              if r.isTruthy then
                (some (r.setField "id" (request_id.getD Json.null)), s)
              else
                (some (Json.obj [("jsonrpc", Json.str "2.0"),
                  ("id", request_id.getD Json.null), ("result", Json.null)]), s)
          | none =>
              (some (Json.obj [("jsonrpc", Json.str "2.0"),
                ("id", request_id.getD Json.null), ("result", Json.null)]), s)
        else (some (chUnavailableError request_id), s)
    | none => (some (chUnavailableError request_id), s)
  else
    match request_id with
    | some idv =>
        let (response, s) := sendRequestSt env method params s
        match response with
        | some r =>
            if r.isTruthy then (some (r.setField "id" idv), s)
            else
              (some (Json.obj [("jsonrpc", Json.str "2.0"),
                ("id", idv), ("result", Json.null)]), s)
        | none =>
            (some (Json.obj [("jsonrpc", Json.str "2.0"),
              ("id", idv), ("result", Json.null)]), s)
    | none => (none, sendNotificationSt method params s)

/-! ## Statement helpers

Definitions used only to state the claims (they name outcomes of the
black-box round trips that the hypotheses of the theorems below rang
over). -/

/-- The non-empty-list test both legs of `handle_workspace_symbol` apply
to a backend response: the response is truthy, carries a `result`
field, and that result is a non-empty list. -/
def respHasNonEmptyListResult (r : Option Json) : Bool :=
  match r with
  | some j =>
      if j.isTruthy then
        match j.getField "result" with
        | some res => res.isNonEmptyArr
        | none => false
      else false
  | none => false

/-- The "no usable result" test of `_try_document_symbol_fallback`
(`not response or "result" not in response`, then `not result`): the
round trip produced nothing, or a falsy response, or no `result` field,
or a falsy result. -/
def responseResultFails (r : Option Json) : Bool :=
  match r with
  | some j =>
      if j.isTruthy then
        match j.getField "result" with
        | some res => !res.isTruthy
        | none => true
      else true
  | none => true

/-- The `result` payload of a backend response (`null` when absent; only
read under `responseResultFails … = false`). -/
def resultOf (r : Option Json) : Json :=
  match r with
  | some j => (j.getField "result").getD Json.null
  | none => Json.null

/-- The four failure modes of the definition fallback enumerated by the
claim, in the order the code encounters them: no hover result, no
extractable symbol name, no document symbols, no matching outline
node. -/
def fallback_failure_modes (env : Env) (params : Json) : Bool :=
  let hr := env.backend "textDocument/hover" (hoverPositionParams params)
  if responseResultFails hr then true
  else
    let symbol_name := extract_symbol_from_hover (resultOf hr)
    if symbol_name = "" then true
    else
      let sr := env.backend "textDocument/documentSymbol"
        (Json.obj [("textDocument", (params.getField "textDocument").getD Json.null)])
      if responseResultFails sr then true
      else
        (find_symbol_location (resultOf sr) symbol_name (textDocumentUri params)).isNone

/-! ## Shared lemmas -/

/-- Soundness of the upward walk: a hit is a non-root suffix of the
start directory carrying `app.json` such that no longer (deeper) suffix
carries one; a miss means no non-root suffix carries one. -/
theorem walkUpForAppJson_spec (has : FsPath → Bool) :
    ∀ c : FsPath,
      (∀ d, walkUpForAppJson has c = some d →
        d <:+ c ∧ d ≠ [] ∧ has d = true ∧
        ∀ e, e <:+ c → d.length < e.length → has e = false) ∧
      (walkUpForAppJson has c = none →
        ∀ e, e <:+ c → e ≠ [] → has e = false) := by
  intro c
  induction c with
  | nil =>
      refine ⟨fun d h => by simp [walkUpForAppJson] at h, fun _ e he hne => ?_⟩
      exact absurd (List.suffix_nil.mp he) hne
  | cons a rest ih =>
      by_cases hhead : has (a :: rest) = true
      · refine ⟨fun d h => ?_, fun h => ?_⟩
        · rw [walkUpForAppJson, if_pos hhead] at h
          obtain rfl : a :: rest = d := by simpa using h
          refine ⟨List.suffix_refl _, by simp, hhead, fun e he hlen => ?_⟩
          exact absurd (List.IsSuffix.length_le he) (by omega)
        · rw [walkUpForAppJson, if_pos hhead] at h
          simp at h
      · refine ⟨fun d h => ?_, fun h => ?_⟩
        · rw [walkUpForAppJson, if_neg hhead] at h
          obtain ⟨hsuf, hne, hd, hmin⟩ := ih.1 d h
          refine ⟨hsuf.trans (List.suffix_cons a rest), hne, hd, fun e he hlen => ?_⟩
          rcases List.suffix_cons_iff.mp he with rfl | he'
          · simpa using hhead
          · exact hmin e he' hlen
        · rw [walkUpForAppJson, if_neg hhead] at h
          intro e he hne
          rcases List.suffix_cons_iff.mp he with rfl | he'
          · simpa using hhead
          · exact ih.2 h e he' hne

/-- C7 — `find_project_for_file` returns the nearest (deepest) ancestor
directory containing `app.json`, never a non-ancestor; `none` exactly
when the walk reaches the filesystem root without a hit; and — the
model being a pure function of the filesystem snapshot — repeated calls
on an unchanged filesystem agree definitionally. -/
theorem find_project_for_file_nearest_ancestor
    (hasAppJson : FsPath → Bool) (file_path : FsPath) :
    (∀ d, find_project_for_file hasAppJson file_path = some d →
      d <:+ file_path.tail ∧ d ≠ [] ∧ hasAppJson d = true ∧
        ∀ e, e <:+ file_path.tail → d.length < e.length → hasAppJson e = false) ∧
    ((find_project_for_file hasAppJson file_path = none →
      ∀ e, e <:+ file_path.tail → e ≠ [] → hasAppJson e = false) ∧
    find_project_for_file hasAppJson file_path =
      find_project_for_file hasAppJson file_path) := by
  refine ⟨fun d h => (walkUpForAppJson_spec hasAppJson file_path.tail).1 d h,
    fun h => (walkUpForAppJson_spec hasAppJson file_path.tail).2 h, rfl⟩

/-- Witness for C7 on a concrete filesystem: the file
`/ws/proj/sub/f.al` with a manifest at `/ws/proj` (paths leaf first). -/
theorem find_project_for_file_nearest_ancestor_witness :
    find_project_for_file (fun p => decide (p = ["proj", "ws"]))
        ["f.al", "sub", "proj", "ws"] = some ["proj", "ws"] ∧
      (["proj", "ws"] : FsPath) ≠ [] ∧
      (fun (p : FsPath) => decide (p = ["proj", "ws"])) ["proj", "ws"] = true := by
  have h := (find_project_for_file_nearest_ancestor
    (fun p => decide (p = ["proj", "ws"])) ["f.al", "sub", "proj", "ws"]).1
    ["proj", "ws"] (by decide)
  exact ⟨by decide, h.2.1, h.2.2.1⟩

/-! ## C3 — the definition fallback on the spec's concrete example -/

/-- The hover response payload of the example: markdown content
`procedure TranslateEmailWithAI(Input: Text)`. -/
def fxHover : Json :=
  Json.obj [("contents", Json.obj [("kind", Json.str "markdown"),
    ("value", Json.str "procedure TranslateEmailWithAI(Input: Text)")])]

/-- A selection range for the example outline node. -/
def fxSelRange : Json :=
  Json.obj [("start", Json.obj [("line", Json.num 10), ("character", Json.num 14)]),
    ("end", Json.obj [("line", Json.num 10), ("character", Json.num 34)])]

/-- A (distinct) full range for the example outline node. -/
def fxFullRange : Json :=
  Json.obj [("start", Json.obj [("line", Json.num 10), ("character", Json.num 4)]),
    ("end", Json.obj [("line", Json.num 22), ("character", Json.num 8)])]

/-- A location value carried by a `location` field. -/
def fxLocation : Json :=
  Json.obj [("uri", Json.str "file:///w/p/Other.al"),
    ("range", fxFullRange)]

/-- The outline node named `TranslateEmailWithAI(Text)` with a
selection range and a full range but no `location`. -/
def fxNode : Json :=
  Json.obj [("name", Json.str "TranslateEmailWithAI(Text)"), ("kind", Json.num 6),
    ("range", fxFullRange), ("selectionRange", fxSelRange),
    ("children", Json.arr [])]

/-- The document outline: the matching node is nested in the children
of a non-matching root node, so the hit requires the depth-first
descent. -/
def fxOutline : Json :=
  Json.arr [Json.obj [("name", Json.str "Codeunit X"), ("kind", Json.num 2),
    ("children", Json.arr [fxNode])]]

/-- The same node carrying a `location` field as well. -/
def fxNodeWithLocation : Json :=
  Json.obj [("name", Json.str "TranslateEmailWithAI(Text)"),
    ("location", fxLocation), ("range", fxFullRange),
    ("selectionRange", fxSelRange)]

/-- The same node carrying only a full `range`. -/
def fxNodeRangeOnly : Json :=
  Json.obj [("name", Json.str "TranslateEmailWithAI(Text)"),
    ("range", fxFullRange)]

/-- The definition request of the example. -/
def fxDefinitionParams : Json :=
  Json.obj [("textDocument", Json.obj [("uri", Json.str "file:///w/p/Doc.al")]),
    ("position", Json.obj [("line", Json.num 5), ("character", Json.num 9)])]

/-- A session environment for the example: the primary backend answers
`al/gotodefinition` with an empty list result, the hover with
`fxHover`, and the outline request with `fxOutline`; the file
`/w/p/Doc.al` lives under the project `/w/p` (paths leaf first). -/
def fxEnv : Env where
  hasAppJson := fun p => decide (p = ["p", "w"])
  readFile := fun _ => some "content"
  uriToPath := fun u => if u = "file:///w/p/Doc.al" then ["Doc.al", "p", "w"] else []
  parsePath := fun _ => []
  resolve := id
  cwd := []
  pid := 42
  backend := fun m _ =>
    if m = "al/gotodefinition" then
      some (Json.obj [("jsonrpc", Json.str "2.0"), ("result", Json.arr [])])
    else if m = "textDocument/hover" then
      some (Json.obj [("jsonrpc", Json.str "2.0"), ("result", fxHover)])
    else if m = "textDocument/documentSymbol" then
      some (Json.obj [("jsonrpc", Json.str "2.0"), ("result", fxOutline)])
    else none
  chBackend := fun _ _ => none
  findAlProject := fun _ => none
  callHierarchyExe := none
  chStartOk := false
  pollFuel := fun _ => 1

/-- C3 — on the spec's example: the hover text
`procedure TranslateEmailWithAI(Input: Text)` yields the symbol name
`TranslateEmailWithAI`; the depth-first outline search finds the nested
node named `TranslateEmailWithAI(Text)` (whose parameter-stripped name
matches case-insensitively) and returns its `selectionRange` paired
with the requesting document's URI; a node carrying a `location` field
returns that field instead, and a node with only a full `range` returns
that range with the URI; and the whole `handle_definition` run on this
session returns exactly that fallback location. -/
theorem definition_fallback_example :
    extract_symbol_from_hover fxHover = "TranslateEmailWithAI" ∧
    find_symbol_location fxOutline "TranslateEmailWithAI" "file:///w/p/Doc.al" =
      some (Json.obj [("uri", Json.str "file:///w/p/Doc.al"), ("range", fxSelRange)]) ∧
    find_symbol_location (Json.arr [fxNodeWithLocation]) "TranslateEmailWithAI"
        "file:///w/p/Doc.al" = some fxLocation ∧
    find_symbol_location (Json.arr [fxNodeRangeOnly]) "TranslateEmailWithAI"
        "file:///w/p/Doc.al" =
      some (Json.obj [("uri", Json.str "file:///w/p/Doc.al"), ("range", fxFullRange)]) ∧
    (handle_definition fxEnv fxDefinitionParams {}).1 =
      Json.obj [("jsonrpc", Json.str "2.0"),
        ("result", Json.obj [("uri", Json.str "file:///w/p/Doc.al"),
          ("range", fxSelRange)])] := by
  refine ⟨rfl, rfl, rfl, rfl, rfl⟩

/-! ## C2 — the empty-query rejection -/

/-- C2 — a workspace-symbol query that is empty after stripping
whitespace is answered, from the unchanged state (so with no request or
notification written to either backend), by the `-32602` invalid-params
error response, whose error object carries a non-empty human-readable
message. -/
theorem workspace_symbol_empty_query_rejected
    (env : Env) (params : Json) (s : St)
    (h : pyStrip ((params.getField "query").getD (Json.str "")).asString = "") :
    handle_workspace_symbol env params s = (emptyQueryError, s) ∧
    ((emptyQueryError.getField "error").bind (fun e => e.getField "code")) =
      some (Json.num (-32602)) ∧
    ∃ m, ((emptyQueryError.getField "error").bind (fun e => e.getField "message")) =
      some (Json.str m) ∧ m ≠ "" := by
  refine ⟨?_, rfl, ⟨_, rfl, by decide⟩⟩
  rw [handle_workspace_symbol]
  simp [h]

/-- Witness for C2: a whitespace-only query in the example session;
nothing is sent and the `-32602` error is returned. -/
theorem workspace_symbol_empty_query_rejected_witness :
    handle_workspace_symbol fxEnv (Json.obj [("query", Json.str "  \t ")]) {} =
      (emptyQueryError, {}) ∧
    ((emptyQueryError.getField "error").bind (fun e => e.getField "code")) =
      some (Json.num (-32602)) := by
  have h := workspace_symbol_empty_query_rejected fxEnv
    (Json.obj [("query", Json.str "  \t ")]) {} (by rfl)
  exact ⟨h.1, h.2.1⟩

/-! ## C9 — the readiness-check asymmetry -/

/-- A response that carries a field is a non-empty dictionary, hence
truthy. -/
theorem Json.isTruthy_of_getField (j : Json) (k : String) (v : Json)
    (h : j.getField k = some v) : j.isTruthy = true := by
  cases j with
  | obj fields =>
      cases fields with
      | nil => simp [Json.getField, Json.getField.lookupField] at h
      | cons p rest => simp [Json.isTruthy]
  | null => simp [Json.getField] at h
  | bool b => simp [Json.getField] at h
  | num n => simp [Json.getField] at h
  | str s => simp [Json.getField] at h
  | arr xs => simp [Json.getField] at h

/-- C9 — `check_project_loaded` maps outcomes asymmetrically: a boolean
result is returned as-is; an object result yields its `loaded` field
with default `false`; a `null` result and a raising check are both
"assume loaded" (`true`); a result of any other shape, a response
without a `result` field, and a missing response are all "not loaded"
(`false`). -/
theorem check_project_loaded_asymmetry :
    (∀ resp b, resp.getField "result" = some (Json.bool b) →
      check_project_loaded_outcome (Except.ok (some resp)) = Json.bool b) ∧
    (∀ resp fields, resp.getField "result" = some (Json.obj fields) →
      check_project_loaded_outcome (Except.ok (some resp)) =
        ((Json.obj fields).getField "loaded").getD (Json.bool false)) ∧
    (∀ resp, resp.getField "result" = some Json.null →
      check_project_loaded_outcome (Except.ok (some resp)) = Json.bool true) ∧
    check_project_loaded_outcome (Except.error ()) = Json.bool true ∧
    (∀ resp n, resp.getField "result" = some (Json.num n) →
      check_project_loaded_outcome (Except.ok (some resp)) = Json.bool false) ∧
    (∀ resp m, resp.getField "result" = some (Json.str m) →
      check_project_loaded_outcome (Except.ok (some resp)) = Json.bool false) ∧
    (∀ resp xs, resp.getField "result" = some (Json.arr xs) →
      check_project_loaded_outcome (Except.ok (some resp)) = Json.bool false) ∧
    (∀ resp, resp.getField "result" = none →
      check_project_loaded_outcome (Except.ok (some resp)) = Json.bool false) ∧
    check_project_loaded_outcome (Except.ok none) = Json.bool false := by
  refine ⟨fun resp b h => ?_, fun resp fields h => ?_, fun resp h => ?_, rfl,
    fun resp n h => ?_, fun resp m h => ?_, fun resp xs h => ?_, fun resp h => ?_,
    rfl⟩ <;>
    simp [check_project_loaded_outcome, h]
  all_goals simp [Json.isTruthy_of_getField resp _ _ h]

/-- Witness for C9: a boolean result is passed through, a raising check
is "assume loaded", and a string-shaped result is "not loaded". -/
theorem check_project_loaded_asymmetry_witness :
    check_project_loaded_outcome
        (Except.ok (some (Json.obj [("result", Json.bool true)]))) = Json.bool true ∧
    check_project_loaded_outcome (Except.error ()) = Json.bool true ∧
    check_project_loaded_outcome
        (Except.ok (some (Json.obj [("result", Json.str "odd")]))) = Json.bool false :=
  ⟨check_project_loaded_asymmetry.1 _ true rfl,
    check_project_loaded_asymmetry.2.2.2.1,
    check_project_loaded_asymmetry.2.2.2.2.2.1 _ "odd" rfl⟩

/-! ## C10 — quoted captures are unquoted -/

/-- C10 — whenever the first matching extraction pattern captures a
double-quoted identifier `"inner"`, `_extract_symbol_from_hover`
returns `inner` with the surrounding quotes removed. -/
theorem extract_symbol_unquotes_quoted_capture
    (hover_result : Json) (inner : List Char)
    (h : firstPatternCapture (hoverContentOf hover_result) =
      some ('"' :: inner ++ ['"'])) :
    extract_symbol_from_hover hover_result = String.mk inner := by
  rw [extract_symbol_from_hover]
  by_cases hc : hoverContentOf hover_result = ""
  · rw [hc] at h
    have hnone : firstPatternCapture "" = none := rfl
    rw [hnone] at h
    exact Option.noConfusion h
  · simp only [hc, if_neg, h]
    have hq : startsEndsQuote ('"' :: inner ++ ['"']) = true := by
      simp [startsEndsQuote]
      show (('"' :: inner) ++ ['"']).getLast? = some '"'
      exact List.getLast?_concat _
    simp only [hq, if_pos, List.drop_succ_cons, List.drop_zero]
    show String.mk ((inner ++ ['"']).dropLast) = String.mk inner
    rw [List.dropLast_concat]

/-- Witness for C10: the hover text
`procedure "My Proc"(x: Text)` captures `"My Proc"` and the extraction
returns `My Proc`. -/
theorem extract_symbol_unquotes_quoted_capture_witness :
    extract_symbol_from_hover
      (Json.obj [("contents", Json.str "procedure \"My Proc\"(x: Text)")]) =
      String.mk "My Proc".toList :=
  extract_symbol_unquotes_quoted_capture
    (Json.obj [("contents", Json.str "procedure \"My Proc\"(x: Text)")])
    "My Proc".toList (by rfl)

/-! ## C8 — call-hierarchy methods with an unavailable bridge -/

/-- C8 — a `textDocument/prepareCallHierarchy`,
`callHierarchy/incomingCalls` or `callHierarchy/outgoingCalls` request
arriving while the call-hierarchy bridge is absent or uninitialized is
answered, from the unchanged state (so with nothing forwarded to the
primary backend), by the `-32601` error response carrying the client's
request identifier. -/
theorem call_hierarchy_unavailable_error
    (env : Env) (request : Json) (s : St)
    (hm : isCallHierarchyMethod
      (((request.getField "method").getD (Json.str "")).asString) = true)
    (hch : s.callHierarchy = none ∨
      ∃ ch, s.callHierarchy = some ch ∧ ch.initialized = false) :
    process_request env request s =
      (some (chUnavailableError (requestIdOf request)), s) ∧
    ((chUnavailableError (requestIdOf request)).getField "error").bind
      (fun e => e.getField "code") = some (Json.num (-32601)) ∧
    (chUnavailableError (requestIdOf request)).getField "id" =
      some ((requestIdOf request).getD Json.null) := by
  refine ⟨?_, by simp [chUnavailableError, Json.getField, Json.getField.lookupField],
    by simp [chUnavailableError, Json.getField, Json.getField.lookupField]⟩
  rw [process_request]
  rw [isCallHierarchyMethod] at hm
  simp only [Bool.or_eq_true, decide_eq_true_eq] at hm
  rcases hch with hnone | ⟨ch, hsome, hinit⟩
  · rcases hm with (h | h) | h <;> simp [h, isCallHierarchyMethod, hnone]
  · rcases hm with (h | h) | h <;> simp [h, isCallHierarchyMethod, hsome, hinit]

/-- Witness for C8: an `incomingCalls` request with identifier `7`
against a session with no bridge. -/
theorem call_hierarchy_unavailable_error_witness :
    process_request fxEnv
        (Json.obj [("method", Json.str "callHierarchy/incomingCalls"),
          ("id", Json.num 7), ("params", Json.obj [])]) {} =
      (some (chUnavailableError (some (Json.num 7))), {}) := by
  have h := call_hierarchy_unavailable_error fxEnv
    (Json.obj [("method", Json.str "callHierarchy/incomingCalls"),
      ("id", Json.num 7), ("params", Json.obj [])]) {} (by rfl) (Or.inl rfl)
  exact h.1

/-! ## C5 — idempotent project initialization -/

/-- C5 — `_ensure_project_initialized` is idempotent per resolved root:
once the root is recorded, a call for any file resolving to that root
returns it immediately with the state — and hence the trace of sent
messages — unchanged; and a first (initializing) call records the root,
so the side-effect sequence is issued at most once per root. -/
theorem ensure_project_initialized_idempotent
    (env : Env) (file_uri : String) (s : St) (pr : FsPath)
    (hfind : find_project_for_file env.hasAppJson (env.uriToPath file_uri) =
      some pr) :
    (env.resolve pr ∈ s.initializedProjects →
      ensure_project_initialized env file_uri s = (some (env.resolve pr), s)) ∧
    (env.resolve pr ∉ s.initializedProjects →
      (ensure_project_initialized env file_uri s).1 = some (env.resolve pr) ∧
      env.resolve pr ∈
        (ensure_project_initialized env file_uri s).2.initializedProjects) := by
  constructor
  · intro hmem
    rw [ensure_project_initialized, hfind]
    simp [hmem]
  · intro hmem
    rw [ensure_project_initialized, hfind]
    simp only [if_neg hmem]
    by_cases happ : env.hasAppJson (env.resolve pr) = true
    · rcases hread : env.readFile ("app.json" :: env.resolve pr) with _ | content <;>
        simp [happ, hread, sendRequestSt, sendNotificationSt, St.emit,
          St.addProject, hmem]
    · simp [happ, sendRequestSt, sendNotificationSt, St.emit, St.addProject, hmem]

/-- Witness for C5: with the project root `/w/p` already recorded, the
call returns immediately with the state unchanged. -/
theorem ensure_project_initialized_idempotent_witness :
    ensure_project_initialized fxEnv "file:///w/p/Doc.al"
        { initializedProjects := [["p", "w"]] } =
      (some ["p", "w"], { initializedProjects := [["p", "w"]] }) := by
  have h := (ensure_project_initialized_idempotent fxEnv "file:///w/p/Doc.al"
    { initializedProjects := [["p", "w"]] } ["p", "w"] (by rfl)).1 (by decide)
  exact h

/-! ## C1 — workspace-symbol results are always arrays -/

/-- A value passing the non-empty-list test is an array. -/
theorem Json.eq_arr_of_isNonEmptyArr (res : Json)
    (h : res.isNonEmptyArr = true) : ∃ xs, res = Json.arr xs := by
  cases res <;> simp [Json.isNonEmptyArr] at h ⊢

/-- The `al/symbolSearch` leg always yields a response whose `result`
is an array, and yields the canonical empty-array response whenever the
backend's answer carries no non-empty list result. -/
theorem workspace_symbol_al_fallback_spec (env : Env) (query : String) (s : St) :
    (∃ xs, ((workspace_symbol_al_fallback env query s).1).getField "result" =
      some (Json.arr xs)) ∧
    (respHasNonEmptyListResult (env.backend "al/symbolSearch"
        (Json.obj [("query", Json.str query)])) = false →
      (workspace_symbol_al_fallback env query s).1 = emptyWorkspaceSymbolResult) := by
  rw [workspace_symbol_al_fallback]
  simp only [sendRequestSt]
  rcases hr : env.backend "al/symbolSearch" (Json.obj [("query", Json.str query)])
    with _ | j
  · exact ⟨⟨[], rfl⟩, fun _ => rfl⟩
  · by_cases jt : j.isTruthy = true
    · rcases hres : j.getField "result" with _ | res
      · simp only [jt, hres, if_true]
        exact ⟨⟨[], rfl⟩, fun _ => trivial⟩
      · by_cases hne : res.isNonEmptyArr = true
        · obtain ⟨xs, hxs⟩ := Json.eq_arr_of_isNonEmptyArr res hne
          simp only [jt, hres, hne, if_true]
          refine ⟨⟨xs, ?_⟩, fun hfalse => ?_⟩
          · rw [hxs]
          · simp [respHasNonEmptyListResult, jt, hres, hne] at hfalse
        · simp only [jt, hres, hne, if_true, Bool.false_eq_true, if_false]
          exact ⟨⟨[], rfl⟩, fun _ => trivial⟩
    · have jtf : j.isTruthy = false := by simpa using jt
      simp only [jtf, Bool.false_eq_true, if_false]
      exact ⟨⟨[], rfl⟩, fun _ => trivial⟩

/-- C1 — for a query that is non-empty after stripping whitespace,
`handle_workspace_symbol` returns a response whose `result` field is an
array (never `null` and never absent); and when neither the standard
`workspace/symbol` round trip nor the `al/symbolSearch` fallback yields
a non-empty list result, the returned response is exactly
`{"jsonrpc": "2.0", "result": []}`. -/
theorem workspace_symbol_result_always_array
    (env : Env) (params : Json) (s : St)
    (hq : pyStrip ((params.getField "query").getD (Json.str "")).asString ≠ "") :
    (∃ xs, ((handle_workspace_symbol env params s).1).getField "result" =
      some (Json.arr xs)) ∧
    ((respHasNonEmptyListResult (env.backend "workspace/symbol"
        (Json.obj [("query", Json.str (rewriteQuery
          ((params.getField "query").getD (Json.str "")).asString))])) = false ∧
      respHasNonEmptyListResult (env.backend "al/symbolSearch"
        (Json.obj [("query", Json.str (rewriteQuery
          ((params.getField "query").getD (Json.str "")).asString))])) = false) →
      (handle_workspace_symbol env params s).1 = emptyWorkspaceSymbolResult) := by
  have hq0 : ((params.getField "query").getD (Json.str "")).asString ≠ "" := by
    intro h
    apply hq
    rw [h]
    rfl
  rw [handle_workspace_symbol]
  simp only [hq0, hq, if_false, sendRequestSt, decide_False, Bool.or_self,
    Bool.false_eq_true]
  rcases hr : env.backend "workspace/symbol"
      (Json.obj [("query", Json.str (rewriteQuery
        ((params.getField "query").getD (Json.str "")).asString))]) with _ | j
  · refine ⟨(workspace_symbol_al_fallback_spec env _ _).1, fun hh => ?_⟩
    exact (workspace_symbol_al_fallback_spec env _ _).2 hh.2
  · by_cases jt : j.isTruthy = true
    · rcases hres : j.getField "result" with _ | res
      · simp only [jt, hres, if_true]
        refine ⟨(workspace_symbol_al_fallback_spec env _ _).1, fun hh => ?_⟩
        exact (workspace_symbol_al_fallback_spec env _ _).2 hh.2
      · by_cases hne : res.isNonEmptyArr = true
        · obtain ⟨xs, hxs⟩ := Json.eq_arr_of_isNonEmptyArr res hne
          simp only [jt, hres, hne, if_true]
          refine ⟨⟨xs, ?_⟩, fun hh => ?_⟩
          · rw [hxs]
          · have := hh.1
            simp [respHasNonEmptyListResult, jt, hres, hne] at this
        · simp only [jt, hres, hne, if_true, Bool.false_eq_true, if_false]
          refine ⟨(workspace_symbol_al_fallback_spec env _ _).1, fun hh => ?_⟩
          exact (workspace_symbol_al_fallback_spec env _ _).2 hh.2
    · have jtf : j.isTruthy = false := by simpa using jt
      simp only [jtf, Bool.false_eq_true, if_false]
      refine ⟨(workspace_symbol_al_fallback_spec env _ _).1, fun hh => ?_⟩
      exact (workspace_symbol_al_fallback_spec env _ _).2 hh.2

/-- Witness for C1: the query `Foo` in the example session, where both
search legs yield nothing, produces the canonical empty-array
response. -/
theorem workspace_symbol_result_always_array_witness :
    (∃ xs, ((handle_workspace_symbol fxEnv
        (Json.obj [("query", Json.str "Foo")]) {}).1).getField "result" =
      some (Json.arr xs)) ∧
    (handle_workspace_symbol fxEnv
        (Json.obj [("query", Json.str "Foo")]) {}).1 = emptyWorkspaceSymbolResult := by
  have h := workspace_symbol_result_always_array fxEnv
    (Json.obj [("query", Json.str "Foo")]) {} (by decide)
  exact ⟨h.1, h.2 ⟨rfl, rfl⟩⟩

/-! ## C4 — fallback failure preserves the original empty response -/

/-- When the claim's enumerated failure modes hold, the document-symbol
fallback returns `None` from every state (its value never depends on the
wrapper state, only on the backend's answers). -/
theorem try_document_symbol_fallback_value_none
    (env : Env) (params : Json)
    (h : fallback_failure_modes env params = true) :
    ∀ s, (try_document_symbol_fallback env params s).1 = none := by
  intro s
  rw [try_document_symbol_fallback]
  rw [fallback_failure_modes] at h
  simp only [sendRequestSt]
  rcases hhr : env.backend "textDocument/hover" (hoverPositionParams params)
    with _ | hj
  · rfl
  · by_cases ht : hj.isTruthy = true
    · rcases hres : hj.getField "result" with _ | hover_result
      · simp [ht, hres]
      · by_cases hrt : hover_result.isTruthy = true
        · by_cases hname : extract_symbol_from_hover hover_result = ""
          · simp [ht, hres, hrt, hname]
          · simp only [hhr, responseResultFails, resultOf, ht, hres, hrt, hname,
              if_true, if_false, Option.getD_some, Bool.not_true,
              Bool.false_eq_true, ite_false, ite_true] at h
            rcases hsr : env.backend "textDocument/documentSymbol"
                (Json.obj [("textDocument",
                  (params.getField "textDocument").getD Json.null)]) with _ | sj
            · simp [ht, hres, hrt, hname]
            · rw [hsr] at h
              by_cases hst : sj.isTruthy = true
              · rcases hsres : sj.getField "result" with _ | symbols
                · simp [ht, hres, hrt, hname, hst, hsres]
                · by_cases hsymt : symbols.isTruthy = true
                  · simp only [hst, hsres, hsymt, if_true, Bool.not_true,
                      Bool.false_eq_true, ite_false, ite_true,
                      Option.getD_some] at h
                    simp only [ht, hres, hrt, hname, hst, hsres, hsymt, if_true,
                      Bool.not_true, Bool.false_eq_true, ite_false, ite_true]
                    exact Option.isNone_iff_eq_none.mp h
                  · simp [ht, hres, hrt, hname, hst, hsres, hsymt]
              · simp [ht, hres, hrt, hname, hst]
        · simp [ht, hres, hrt]
    · simp [ht]

/-- C4 — when `al/gotodefinition` answers with an empty result (`null`
or `[]`) and the fallback fails at any step — no hover result, no
extractable symbol name, no document symbols, or no matching outline
node (`fallback_failure_modes`) — `handle_definition` returns the
backend's original response unchanged: no error object and no
fabricated location. -/
theorem definition_fallback_preserves_original
    (env : Env) (params : Json) (s : St) (r result : Json)
    (hresp : env.backend "al/gotodefinition" (alDefinitionParams params) = some r)
    (htruthy : r.isTruthy = true)
    (hres : r.getField "result" = some result)
    (hempty : is_empty_definition_result result = true)
    (hfail : fallback_failure_modes env params = true) :
    (handle_definition env params s).1 = r := by
  rw [handle_definition]
  simp only [sendRequestSt, hresp, htruthy, hres, hempty, if_true, Bool.not_true,
    Bool.false_eq_true, ite_false, ite_true]
  rw [try_document_symbol_fallback_value_none env params hfail]

/-- A session whose backend answers `al/gotodefinition` with a `null`
result and never answers the hover request, so the fallback fails at
its first step. -/
def fxEnvNoFallback : Env :=
  { fxEnv with
    backend := fun m _ =>
      if m = "al/gotodefinition" then
        some (Json.obj [("jsonrpc", Json.str "2.0"), ("result", Json.null)])
      else none }

/-- Witness for C4: with no hover response, the original `null`-result
response comes back unchanged. -/
theorem definition_fallback_preserves_original_witness :
    (handle_definition fxEnvNoFallback fxDefinitionParams {}).1 =
      Json.obj [("jsonrpc", Json.str "2.0"), ("result", Json.null)] :=
  definition_fallback_preserves_original fxEnvNoFallback fxDefinitionParams {}
    (Json.obj [("jsonrpc", Json.str "2.0"), ("result", Json.null)]) Json.null
    rfl rfl rfl rfl rfl

/-! ## C6 — file-path queries are rewritten before searching -/

/-- `_ensure_project_initialized` only ever appends to the trace. -/
theorem ensure_project_initialized_trace (env : Env) (u : String) (s : St) :
    ∃ t, (ensure_project_initialized env u s).2.trace = s.trace ++ t := by
  rw [ensure_project_initialized]
  rcases find_project_for_file env.hasAppJson (env.uriToPath u) with _ | pr
  · exact ⟨[], by simp⟩
  · simp only []
    by_cases hmem : env.resolve pr ∈ s.initializedProjects
    · simp [hmem]
    · simp only [hmem, if_false, ite_false]
      by_cases happ : env.hasAppJson (env.resolve pr) = true
      · rcases hread : env.readFile ("app.json" :: env.resolve pr) with _ | c <;>
          simp [happ, hread, sendRequestSt, sendNotificationSt, St.emit,
            St.addProject] <;>
          split <;> simp
      · simp only [happ, Bool.false_eq_true, if_false, ite_false]
        simp [sendRequestSt, sendNotificationSt, St.emit, St.addProject]
        split <;> simp

/-- `_wait_for_project_load` only ever appends to the trace. -/
theorem wait_for_project_load_trace (env : Env) :
    ∀ (fuel : Nat) (s : St),
      ∃ t, (wait_for_project_load env fuel s).2.trace = s.trace ++ t := by
  intro fuel
  induction fuel with
  | zero => exact fun s => ⟨[], by simp [wait_for_project_load]⟩
  | succ f ih =>
      intro s
      rw [wait_for_project_load]
      simp only [check_project_loaded, sendRequestSt]
      split
      · exact ⟨[Msg.req "al/hasProjectClosureLoadedRequest" (Json.obj [])],
          by simp [St.emit]⟩
      · obtain ⟨t, ht⟩ := ih (({ s with requestId := s.requestId + 1 } : St).emit
          (Msg.req "al/hasProjectClosureLoadedRequest" (Json.obj [])))
        refine ⟨[Msg.req "al/hasProjectClosureLoadedRequest" (Json.obj [])] ++ t, ?_⟩
        rw [ht]
        simp [St.emit]

/-- The `al/symbolSearch` leg appends exactly its own request. -/
theorem workspace_symbol_al_fallback_trace (env : Env) (query : String) (s : St) :
    (workspace_symbol_al_fallback env query s).2.trace =
      s.trace ++ [Msg.req "al/symbolSearch" (Json.obj [("query", Json.str query)])] := by
  rw [workspace_symbol_al_fallback]
  simp only [sendRequestSt]
  rcases env.backend "al/symbolSearch" (Json.obj [("query", Json.str query)])
    with _ | j
  · simp [St.emit]
  · by_cases jt : j.isTruthy = true
    · rcases hres : j.getField "result" with _ | res
      · simp [jt, hres, St.emit]
      · by_cases hne : res.isNonEmptyArr = true <;> simp [jt, hres, hne, St.emit]
    · have jtf : j.isTruthy = false := by simpa using jt
      simp [jtf, St.emit]

/-- C6 — a workspace-symbol query containing a path separator or ending
in `.al` is rewritten by `rewriteQuery` (last path segment, `.al`
extension stripped, split on the first two spaces, third part when the
split yields three parts, else the whole stripped filename) and the
search request actually sent to the backend carries the rewritten
query; in particular `"Table 6175301 CDO File.al"` becomes
`"CDO File"`. -/
theorem workspace_symbol_query_rewrite
    (env : Env) (params : Json) (s : St)
    (_hpath : (((params.getField "query").getD (Json.str "")).asString.toList.contains '\\'
        || ((params.getField "query").getD (Json.str "")).asString.toList.contains '/'
        || pyEndsWith ((params.getField "query").getD (Json.str "")).asString ".al") = true)
    (hq : pyStrip ((params.getField "query").getD (Json.str "")).asString ≠ "") :
    rewriteQuery "Table 6175301 CDO File.al" = "CDO File" ∧
    Msg.req "workspace/symbol" (Json.obj [("query",
        Json.str (rewriteQuery ((params.getField "query").getD (Json.str "")).asString))])
      ∈ (handle_workspace_symbol env params s).2.trace := by
  refine ⟨rfl, ?_⟩
  have hq0 : ((params.getField "query").getD (Json.str "")).asString ≠ "" := by
    intro h
    apply hq
    rw [h]
    rfl
  rw [handle_workspace_symbol]
  simp only [hq0, hq, decide_False, Bool.or_self, Bool.false_eq_true, if_false,
    sendRequestSt]
  rcases hr : env.backend "workspace/symbol"
      (Json.obj [("query", Json.str (rewriteQuery
        ((params.getField "query").getD (Json.str "")).asString))]) with _ | j
  · rw [workspace_symbol_al_fallback_trace]
    simp [St.emit]
  · by_cases jt : j.isTruthy = true
    · rcases hres : j.getField "result" with _ | res
      · simp only [jt, hres, if_true]
        rw [workspace_symbol_al_fallback_trace]
        simp [St.emit]
      · by_cases hne : res.isNonEmptyArr = true
        · simp only [jt, hres, hne, if_true]
          simp [St.emit]
        · simp only [jt, hres, hne, if_true, Bool.false_eq_true, if_false]
          rw [workspace_symbol_al_fallback_trace]
          simp [St.emit]
    · have jtf : j.isTruthy = false := by simpa using jt
      simp only [jtf, Bool.false_eq_true, if_false]
      rw [workspace_symbol_al_fallback_trace]
      simp [St.emit]

/-- Witness for C6: the query `Table 6175301 CDO File.al` in the example
session; the request actually sent searches for `CDO File`. -/
theorem workspace_symbol_query_rewrite_witness :
    rewriteQuery "Table 6175301 CDO File.al" = "CDO File" ∧
    Msg.req "workspace/symbol"
        (Json.obj [("query", Json.str (rewriteQuery "Table 6175301 CDO File.al"))]) ∈
      (handle_workspace_symbol fxEnv
        (Json.obj [("query", Json.str "Table 6175301 CDO File.al")]) {}).2.trace :=
  workspace_symbol_query_rewrite fxEnv
    (Json.obj [("query", Json.str "Table 6175301 CDO File.al")]) {}
    (by decide) (by decide)
